import Mathlib

/-!
# Verification of the ghkv core (taskworld/ghkv)

Shallow embedding of the ghkv key/value document store and its resource lock.

* `src/index.ts` (and the featureful variant with cache expiry, connectivity
  preflight and the no-op write elision): `GhkvDataStore`, `ensureCache`,
  `updateDoc`, `parseDoc`, `decorateErrorWithMessage`, `ensureConnectivity`.
* `src/contrib/resource-lock/index.ts`: the three updater functions passed to
  `doc.update` by `GhkvResourceLock.acquire` (waiting-phase transition and
  lease renewal) and `release`.

Modelling conventions:

* Timestamps are ISO-8601 date strings in the source, produced by
  `new Date(t).toJSON()` and compared lexicographically (`>=` on strings);
  for dates in one era this order agrees with numeric time, so timestamps are
  embedded as `Nat` milliseconds and the comparisons as `≤`/`<` on `Nat`.
* The asynchronous backend (Octokit) is embedded as an oracle: a function from
  a call counter to the call's outcome.  A state records how many fetches and
  writes have been issued; "no write happened" is "the write counter did not
  change".
* JavaScript errors are embedded as a structure carrying the `status` field
  inspected by the retry loop (absent on non-HTTP errors) and the `message`
  string mutated by `decorateErrorWithMessage`.
-/

namespace Ghkv

/-! ## Lock document model (`src/contrib/resource-lock/index.ts`) -/

/-- The `active` field of a `QueueDoc`: `{ owner: string; expiresAt: string }`. -/
structure ActiveEntry where
  owner : String
  expiresAt : Nat
deriving DecidableEq, Repr

/-- An element of the `queue` field: `{ owner: string }`. -/
structure QueueItem where
  owner : String
deriving DecidableEq, Repr

/-- The lock document:
`{ active?: { owner; expiresAt }, queue?: { owner }[] }`.
Both fields are optional in the TypeScript type, hence the `Option`s. -/
structure QueueDoc where
  active : Option ActiveEntry
  queue : Option (List QueueItem)
deriving DecidableEq, Repr

/-- Owners listed in an optional queue (an absent queue reads as empty). -/
def queueOwners (q : Option (List QueueItem)) : List String :=
  (q.getD []).map QueueItem.owner

/-- `// If someone is using it but expired, pull them down`:
`if (data.active && toDateJSON() >= data.active.expiresAt) delete data.active`. -/
def reclaimExpired (now : Nat) (d : QueueDoc) : QueueDoc :=
  match d.active with
  | some a => if a.expiresAt ≤ now then { d with active := none } else d
  | none => d

/-- `// If no one is using it and there is a queue, put them on stage`:
`if (!data.active && data.queue && data.queue.length > 0) { const { owner } =
data.queue.shift()!; data.active = { owner, expiresAt: toDateJSON(Date.now() + 60e3) } }`.
This block appears verbatim in both the waiting-phase updater and the
`release` updater. -/
def promoteHead (now : Nat) (d : QueueDoc) : QueueDoc :=
  match d.active, d.queue with
  | none, some (item :: rest) => ⟨some ⟨item.owner, now + 60000⟩, some rest⟩
  | _, _ => d

/-- `// If still no one is using it, go on stage`:
`if (!data.active) data.active = { owner: id, expiresAt: toDateJSON(Date.now() + 300e3) }`. -/
def bootstrapActive (id : String) (now : Nat) (d : QueueDoc) : QueueDoc :=
  match d.active with
  | none => { d with active := some ⟨id, now + 300000⟩ }
  | some _ => d

/-- `// If the consumer on stage is not me, wait in queue`:
`if (data.active.owner !== id) { if (!data.queue) data.queue = [];
if (!data.queue.some((item) => item.owner === id)) data.queue.push({ owner: id }) }`. -/
def enqueueSelf (id : String) (d : QueueDoc) : QueueDoc :=
  match d.active with
  | some a =>
    if a.owner = id then d
    else
      let q := d.queue.getD []
      if id ∈ q.map QueueItem.owner then { d with queue := some q }
      else { d with queue := some (q ++ [⟨id⟩]) }
  | none => d

/-- The waiting-phase transition function passed to `doc.update` inside the
`for (;;)` loop of `GhkvResourceLock.acquire`.  `data?` is the parsed document
(`undefined` when the document does not exist, replaced by `{}`). -/
def acquireUpdater (id : String) (now : Nat) (data? : Option QueueDoc) : QueueDoc :=
  let d := reclaimExpired now (data?.getD ⟨none, none⟩)
  match d.active with
  | some a =>
    if a.owner = id then d
    else enqueueSelf id (bootstrapActive id now (promoteHead now d))
  | none => enqueueSelf id (bootstrapActive id now (promoteHead now d))

/-- The lease-renewal transition function run by the background loop of the
active phase: `if (data.active && data.active.owner === id)
data.active.expiresAt = toDateJSON(Date.now() + 300e3)`. -/
def renewUpdater (id : String) (now : Nat) (data? : Option QueueDoc) : QueueDoc :=
  let d := data?.getD ⟨none, none⟩
  match d.active with
  | some a =>
    if a.owner = id then { d with active := some ⟨a.owner, now + 300000⟩ } else d
  | none => d

/-- The final transition function run by `release`:
`if (data.active && data.active.owner === id) delete data.active` followed by
the promotion block. -/
def releaseUpdater (id : String) (now : Nat) (data? : Option QueueDoc) : QueueDoc :=
  let d := data?.getD ⟨none, none⟩
  let d :=
    match d.active with
    | some a => if a.owner = id then { d with active := none } else d
    | none => d
  promoteHead now d

/-! ### Basic frame lemmas for the lock transitions -/

theorem reclaimExpired_queue (now : Nat) (d : QueueDoc) :
    (reclaimExpired now d).queue = d.queue := by
  rcases d with ⟨act, q⟩
  cases act
  · rfl
  · simp only [reclaimExpired]
    split <;> rfl

theorem bootstrapActive_queue (id : String) (now : Nat) (d : QueueDoc) :
    (bootstrapActive id now d).queue = d.queue := by
  rcases d with ⟨act, q⟩
  cases act <;> rfl

theorem promoteHead_nodup (now : Nat) (d : QueueDoc)
    (h : (queueOwners d.queue).Nodup) :
    (queueOwners (promoteHead now d).queue).Nodup := by
  rcases d with ⟨act, q⟩
  cases act <;> rcases q with _ | ⟨_ | ⟨item, rest⟩⟩ <;>
    simp_all [promoteHead, queueOwners]

theorem promoteHead_owner_mem (now : Nat) (d : QueueDoc) (x : String)
    (h : x ∈ queueOwners (promoteHead now d).queue) :
    x ∈ queueOwners d.queue := by
  rcases d with ⟨act, q⟩
  cases act <;> rcases q with _ | ⟨_ | ⟨item, rest⟩⟩ <;>
    simp_all [promoteHead, queueOwners]

theorem enqueueSelf_nodup (id : String) (d : QueueDoc)
    (h : (queueOwners d.queue).Nodup) :
    (queueOwners (enqueueSelf id d).queue).Nodup := by
  rcases d with ⟨act, q⟩
  cases act with
  | none => exact h
  | some a =>
    by_cases hid : a.owner = id
    · simpa [enqueueSelf, hid] using h
    · by_cases hmem : id ∈ (q.getD []).map QueueItem.owner
      · simpa [enqueueSelf, hid, hmem, queueOwners] using h
      · simp only [enqueueSelf, hid, if_false, hmem, queueOwners, Option.getD_some,
          List.map_append, List.map_cons, List.map_nil]
        exact List.Nodup.append (by simpa [queueOwners] using h)
          (List.nodup_singleton id)
          (fun b hb hb' => hmem ((List.mem_singleton.mp hb') ▸ hb))

/-- C2: the waiting-phase transition of `GhkvResourceLock.acquire`, at time
`now`, (1) treats an `active` entry whose `expiresAt` has passed as cleared,
(2) returns the document unchanged when this owner already holds an unexpired
`active` entry, (3) on a vacancy promotes the queue head to `active` with a
`now + 60s` lease, removing it from the queue, and (4) on a vacancy with an
empty queue makes this owner `active` with a `now + 300s` lease. -/
theorem acquireUpdater_spec (id : String) (now : Nat) (d : QueueDoc) :
    (∀ a, d.active = some a → a.expiresAt ≤ now →
      acquireUpdater id now (some d) = acquireUpdater id now (some { d with active := none })) ∧
    (∀ a, d.active = some a → a.owner = id → now < a.expiresAt →
      acquireUpdater id now (some d) = d) ∧
    (∀ item rest, (d.active = none ∨ ∃ a, d.active = some a ∧ a.expiresAt ≤ now) →
      d.queue = some (item :: rest) →
      (acquireUpdater id now (some d)).active = some ⟨item.owner, now + 60000⟩ ∧
      ((acquireUpdater id now (some d)).queue = some rest ∨
       (acquireUpdater id now (some d)).queue = some (rest ++ [⟨id⟩]))) ∧
    ((d.active = none ∨ ∃ a, d.active = some a ∧ a.expiresAt ≤ now) →
      (d.queue = none ∨ d.queue = some []) →
      (acquireUpdater id now (some d)).active = some ⟨id, now + 300000⟩) := by
  obtain ⟨act, q⟩ := d
  refine ⟨?_, ?_, ?_, ?_⟩
  · rintro a ha he
    simp only [QueueDoc.active] at ha
    subst ha
    simp [acquireUpdater, reclaimExpired, he]
  · rintro a ha hid hlt
    simp only [QueueDoc.active] at ha
    subst ha
    simp [acquireUpdater, reclaimExpired, Nat.not_le.mpr hlt, hid]
  · rintro item rest hvac hq
    simp only [QueueDoc.queue] at hq
    subst hq
    have hact : reclaimExpired now ⟨act, some (item :: rest)⟩ =
        ⟨none, some (item :: rest)⟩ := by
      rcases hvac with h | ⟨a, ha, he⟩
      · simp only [QueueDoc.active] at h
        subst h
        rfl
      · simp only [QueueDoc.active] at ha
        subst ha
        simp [reclaimExpired, he]
    by_cases hio : item.owner = id
    · simp [acquireUpdater, hact, promoteHead, bootstrapActive, enqueueSelf, hio]
    · by_cases hmem : id ∈ rest.map QueueItem.owner
      · simp [acquireUpdater, hact, promoteHead, bootstrapActive, enqueueSelf, hio, hmem]
      · simp [acquireUpdater, hact, promoteHead, bootstrapActive, enqueueSelf, hio, hmem]
  · rintro hvac hq
    have hact : reclaimExpired now ⟨act, q⟩ = ⟨none, q⟩ := by
      rcases hvac with h | ⟨a, ha, he⟩
      · simp only [QueueDoc.active] at h
        subst h
        rfl
      · simp only [QueueDoc.active] at ha
        subst ha
        simp [reclaimExpired, he]
    simp only [QueueDoc.queue] at hq
    rcases hq with h | h <;> subst h <;>
      simp [acquireUpdater, hact, promoteHead, bootstrapActive, enqueueSelf]

/-- Witness for `acquireUpdater_spec` at concrete lock documents. -/
theorem acquireUpdater_spec_witness :
    acquireUpdater "w" 100 (some ⟨some ⟨"old", 50⟩, some [⟨"h"⟩]⟩) =
        acquireUpdater "w" 100 (some ⟨none, some [⟨"h"⟩]⟩) ∧
    acquireUpdater "w" 100 (some ⟨some ⟨"w", 200⟩, none⟩) = ⟨some ⟨"w", 200⟩, none⟩ ∧
    (acquireUpdater "w" 100 (some ⟨some ⟨"old", 50⟩, some [⟨"h"⟩]⟩)).active =
        some ⟨"h", 60100⟩ ∧
    (acquireUpdater "w" 100 (some ⟨none, none⟩)).active = some ⟨"w", 300100⟩ := by
  refine ⟨?_, ?_, ?_, ?_⟩
  · exact (acquireUpdater_spec "w" 100 ⟨some ⟨"old", 50⟩, some [⟨"h"⟩]⟩).1
      ⟨"old", 50⟩ rfl (by decide)
  · exact (acquireUpdater_spec "w" 100 ⟨some ⟨"w", 200⟩, none⟩).2.1
      ⟨"w", 200⟩ rfl rfl (by decide)
  · exact ((acquireUpdater_spec "w" 100 ⟨some ⟨"old", 50⟩, some [⟨"h"⟩]⟩).2.2.1
      ⟨"h"⟩ [] (Or.inr ⟨⟨"old", 50⟩, rfl, by decide⟩) rfl).1
  · exact (acquireUpdater_spec "w" 100 ⟨none, none⟩).2.2.2 (Or.inl rfl) (Or.inl rfl)

/-- C8: the lease-renewal transition sets `active.expiresAt` to `now + 300s`
exactly when `active` exists with `active.owner` equal to this owner; in every
other case the document is unchanged, and in all cases the queue and the
active owner are untouched. -/
theorem renewUpdater_spec (id : String) (now : Nat) (d : QueueDoc) :
    (∀ a, d.active = some a → a.owner = id →
      renewUpdater id now (some d) = { d with active := some ⟨a.owner, now + 300000⟩ }) ∧
    (∀ a, d.active = some a → a.owner ≠ id → renewUpdater id now (some d) = d) ∧
    (d.active = none → renewUpdater id now (some d) = d) ∧
    (renewUpdater id now (some d)).queue = d.queue ∧
    (renewUpdater id now (some d)).active.map ActiveEntry.owner =
      d.active.map ActiveEntry.owner := by
  obtain ⟨act, q⟩ := d
  refine ⟨?_, ?_, ?_, ?_, ?_⟩
  · rintro a ha hid
    simp only [QueueDoc.active] at ha
    subst ha
    simp [renewUpdater, hid]
  · rintro a ha hid
    simp only [QueueDoc.active] at ha
    subst ha
    simp [renewUpdater, hid]
  · rintro h
    simp only [QueueDoc.active] at h
    subst h
    rfl
  · cases act with
    | none => rfl
    | some a =>
      by_cases hid : a.owner = id <;> simp [renewUpdater, hid]
  · cases act with
    | none => rfl
    | some a =>
      by_cases hid : a.owner = id <;> simp [renewUpdater, hid]

/-- Witness for `renewUpdater_spec` at concrete lock documents. -/
theorem renewUpdater_spec_witness :
    renewUpdater "w" 100 (some ⟨some ⟨"w", 10⟩, some [⟨"x"⟩]⟩) =
        ⟨some ⟨"w", 300100⟩, some [⟨"x"⟩]⟩ ∧
    renewUpdater "w" 100 (some ⟨some ⟨"v", 10⟩, none⟩) = ⟨some ⟨"v", 10⟩, none⟩ ∧
    renewUpdater "w" 100 (some ⟨none, some []⟩) = ⟨none, some []⟩ := by
  refine ⟨?_, ?_, ?_⟩
  · exact (renewUpdater_spec "w" 100 ⟨some ⟨"w", 10⟩, some [⟨"x"⟩]⟩).1 ⟨"w", 10⟩ rfl rfl
  · exact (renewUpdater_spec "w" 100 ⟨some ⟨"v", 10⟩, none⟩).2.1 ⟨"v", 10⟩ rfl (by decide)
  · exact (renewUpdater_spec "w" 100 ⟨none, some []⟩).2.2.1 rfl

/-- C7: the `release` transition clears `active` exactly when `active.owner`
equals this owner; if afterwards no one is active and the queue is non-empty
the head is removed and promoted with a `now + 60s` lease; in every other
case the document is unchanged. -/
theorem releaseUpdater_spec (id : String) (now : Nat) (d : QueueDoc) :
    (∀ a, d.active = some a → a.owner = id → (d.queue = none ∨ d.queue = some []) →
      releaseUpdater id now (some d) = { d with active := none }) ∧
    (∀ a item rest, d.active = some a → a.owner = id → d.queue = some (item :: rest) →
      releaseUpdater id now (some d) = ⟨some ⟨item.owner, now + 60000⟩, some rest⟩) ∧
    (∀ a, d.active = some a → a.owner ≠ id → releaseUpdater id now (some d) = d) ∧
    (d.active = none → ∀ item rest, d.queue = some (item :: rest) →
      releaseUpdater id now (some d) = ⟨some ⟨item.owner, now + 60000⟩, some rest⟩) ∧
    (d.active = none → (d.queue = none ∨ d.queue = some []) →
      releaseUpdater id now (some d) = d) := by
  obtain ⟨act, q⟩ := d
  refine ⟨?_, ?_, ?_, ?_, ?_⟩
  · rintro a ha hid hq
    simp only [QueueDoc.active] at ha
    subst ha
    simp only [QueueDoc.queue] at hq
    rcases hq with h | h <;> subst h <;> simp [releaseUpdater, hid, promoteHead]
  · rintro a item rest ha hid hq
    simp only [QueueDoc.active] at ha
    subst ha
    simp only [QueueDoc.queue] at hq
    subst hq
    simp [releaseUpdater, hid, promoteHead]
  · rintro a ha hid
    simp only [QueueDoc.active] at ha
    subst ha
    simp [releaseUpdater, hid, promoteHead]
  · rintro h item rest hq
    simp only [QueueDoc.active] at h
    subst h
    simp only [QueueDoc.queue] at hq
    subst hq
    simp [releaseUpdater, promoteHead]
  · rintro h hq
    simp only [QueueDoc.active] at h
    subst h
    simp only [QueueDoc.queue] at hq
    rcases hq with h | h <;> subst h <;> simp [releaseUpdater, promoteHead]

/-- Witness for `releaseUpdater_spec` at concrete lock documents. -/
theorem releaseUpdater_spec_witness :
    releaseUpdater "w" 100 (some ⟨some ⟨"w", 500⟩, some []⟩) = ⟨none, some []⟩ ∧
    releaseUpdater "w" 100 (some ⟨some ⟨"w", 500⟩, some [⟨"h"⟩, ⟨"x"⟩]⟩) =
        ⟨some ⟨"h", 60100⟩, some [⟨"x"⟩]⟩ ∧
    releaseUpdater "w" 100 (some ⟨some ⟨"v", 500⟩, some [⟨"h"⟩]⟩) =
        ⟨some ⟨"v", 500⟩, some [⟨"h"⟩]⟩ ∧
    releaseUpdater "w" 100 (some ⟨none, none⟩) = ⟨none, none⟩ := by
  refine ⟨?_, ?_, ?_, ?_⟩
  · exact (releaseUpdater_spec "w" 100 ⟨some ⟨"w", 500⟩, some []⟩).1
      ⟨"w", 500⟩ rfl rfl (Or.inr rfl)
  · exact (releaseUpdater_spec "w" 100 ⟨some ⟨"w", 500⟩, some [⟨"h"⟩, ⟨"x"⟩]⟩).2.1
      ⟨"w", 500⟩ ⟨"h"⟩ [⟨"x"⟩] rfl rfl rfl
  · exact (releaseUpdater_spec "w" 100 ⟨some ⟨"v", 500⟩, some [⟨"h"⟩]⟩).2.2.1
      ⟨"v", 500⟩ rfl (by decide)
  · exact (releaseUpdater_spec "w" 100 ⟨none, none⟩).2.2.2.2 rfl (Or.inl rfl)

theorem enqueueSelf_new_mem (id : String) (b : QueueDoc)
    (hmem : id ∈ queueOwners (enqueueSelf id b).queue)
    (hnot : id ∉ queueOwners b.queue) :
    ∃ a pre, (enqueueSelf id b).active = some a ∧ a.owner ≠ id ∧
      (enqueueSelf id b).queue = some (pre ++ [⟨id⟩]) ∧
      id ∉ pre.map QueueItem.owner := by
  obtain ⟨act, q⟩ := b
  cases act with
  | none => exact absurd hmem hnot
  | some a =>
    by_cases ha : a.owner = id
    · rw [show enqueueSelf id ⟨some a, q⟩ = ⟨some a, q⟩ by simp [enqueueSelf, ha]] at hmem
      exact absurd hmem hnot
    · by_cases hq : id ∈ (q.getD []).map QueueItem.owner
      · exact absurd (by simpa [queueOwners] using hq) hnot
      · refine ⟨a, q.getD [], ?_, ha, ?_, hq⟩
        · simp [enqueueSelf, ha, hq]
        · simp [enqueueSelf, ha, hq]

/-- C9: all three lock transitions preserve the no-duplicate-owners invariant
of `queue`, and the waiting-phase transition adds this owner to the queue only
by a single append at the tail, only when some other owner ends up `active`
and this owner was not already queued. -/
theorem lock_queue_nodup (id : String) (now : Nat) (d : QueueDoc) :
    ((queueOwners d.queue).Nodup →
      (queueOwners (acquireUpdater id now (some d)).queue).Nodup) ∧
    ((queueOwners d.queue).Nodup →
      (queueOwners (releaseUpdater id now (some d)).queue).Nodup) ∧
    ((queueOwners d.queue).Nodup →
      (queueOwners (renewUpdater id now (some d)).queue).Nodup) ∧
    (id ∉ queueOwners d.queue → id ∈ queueOwners (acquireUpdater id now (some d)).queue →
      ∃ a pre, (acquireUpdater id now (some d)).active = some a ∧ a.owner ≠ id ∧
        (acquireUpdater id now (some d)).queue = some (pre ++ [⟨id⟩]) ∧
        id ∉ pre.map QueueItem.owner) := by
  refine ⟨?_, ?_, ?_, ?_⟩
  · intro hnd
    have hrq : (reclaimExpired now d).queue = d.queue := reclaimExpired_queue now d
    simp only [acquireUpdater, Option.getD_some]
    split
    · split
      · rwa [hrq]
      · exact enqueueSelf_nodup _ _ (by
          rw [bootstrapActive_queue]
          exact promoteHead_nodup _ _ (by rwa [hrq]))
    · exact enqueueSelf_nodup _ _ (by
        rw [bootstrapActive_queue]
        exact promoteHead_nodup _ _ (by rwa [hrq]))
  · intro hnd
    obtain ⟨act, q⟩ := d
    simp only [releaseUpdater, Option.getD_some]
    apply promoteHead_nodup
    cases act with
    | none => exact hnd
    | some a => by_cases hid : a.owner = id <;> simpa [hid] using hnd
  · intro hnd
    obtain ⟨act, q⟩ := d
    cases act with
    | none => exact hnd
    | some a => by_cases hid : a.owner = id <;> simpa [renewUpdater, hid] using hnd
  · intro hid hmem
    have hrq : (reclaimExpired now d).queue = d.queue := reclaimExpired_queue now d
    simp only [acquireUpdater, Option.getD_some] at hmem ⊢
    split at hmem
    · split at hmem
      · rw [hrq] at hmem
        exact absurd hmem hid
      · rename_i hao
        rw [if_neg hao]
        refine enqueueSelf_new_mem id _ hmem ?_
        rw [bootstrapActive_queue]
        intro hx
        have hx' := promoteHead_owner_mem now _ id hx
        rw [hrq] at hx'
        exact hid hx'
    · refine enqueueSelf_new_mem id _ hmem ?_
      rw [bootstrapActive_queue]
      intro hx
      have hx' := promoteHead_owner_mem now _ id hx
      rw [hrq] at hx'
      exact hid hx'

/-- Witness for `lock_queue_nodup` at a concrete lock document held by another
owner with one waiter queued. -/
theorem lock_queue_nodup_witness :
    (queueOwners (acquireUpdater "w" 100 (some ⟨some ⟨"v", 500⟩, some [⟨"x"⟩]⟩)).queue).Nodup ∧
    (queueOwners (releaseUpdater "w" 100 (some ⟨some ⟨"v", 500⟩, some [⟨"x"⟩]⟩)).queue).Nodup ∧
    (queueOwners (renewUpdater "w" 100 (some ⟨some ⟨"v", 500⟩, some [⟨"x"⟩]⟩)).queue).Nodup ∧
    (∃ a pre,
      (acquireUpdater "w" 100 (some ⟨some ⟨"v", 500⟩, some [⟨"x"⟩]⟩)).active = some a ∧
      a.owner ≠ "w" ∧
      (acquireUpdater "w" 100 (some ⟨some ⟨"v", 500⟩, some [⟨"x"⟩]⟩)).queue =
        some (pre ++ [⟨"w"⟩]) ∧
      "w" ∉ pre.map QueueItem.owner) := by
  have h := lock_queue_nodup "w" 100 ⟨some ⟨"v", 500⟩, some [⟨"x"⟩]⟩
  exact ⟨h.1 (by decide), h.2.1 (by decide), h.2.2.1 (by decide),
    h.2.2.2 (by decide) (by decide)⟩

/-! ## Document store model (`src/index.ts`)

The closure created by `GhkvDataStore.doc` is embedded with its mutable
variables made explicit: the per-document `cache` variable becomes a
`RunState`, the Octokit backend becomes an oracle indexed by a call counter,
and the retry loop becomes a function recursing on the remaining budget. -/

/-- A JavaScript error as this core inspects it: the HTTP `status` field
(absent on non-HTTP errors) and the `message` string. -/
structure JsError where
  status : Option Nat
  message : String
deriving DecidableEq, Repr

/-- `decorateErrorWithMessage(text)`: prefixes `text > ` onto the error
message and rethrows (`error.message = text + " > " + error.message`). -/
def decorateErrorWithMessage (text : String) (e : JsError) : JsError :=
  { e with message := text ++ " > " ++ e.message }

/-- A cache entry for an existing document: blob `sha` (the compare-and-swap
version token), stored base64 `content`, and the `expires` timestamp. -/
structure Existing where
  sha : String
  content : String
  expires : Nat
deriving DecidableEq, Repr

/-- The mutable closure state of one document reference: the `cache` variable
(`none` while never loaded, `some none` after a 404 confirmed the document
absent, `some (some ex)` after a fetch or write) and counters of backend
calls issued so far (`nF` fetches via `getContents`, `nW` writes via
`createOrUpdateFile`). -/
structure RunState where
  cache : Option (Option Existing)
  nF : Nat
  nW : Nat
deriving DecidableEq, Repr

/-- The remote store as an oracle: `fetch i` is the outcome of the `i`-th
`getContents` call (a `(sha, content)` pair, or an error whose 404 status
means the document does not exist), `write i` the outcome of the `i`-th
`createOrUpdateFile` call (the new blob sha, or an error whose 409/422
status is a compare-and-swap version conflict). -/
structure Backend where
  fetch : Nat → Except JsError (String × String)
  write : Nat → Except JsError String

/-- `parseDoc`: decodes the cached content, `undefined` when the document is
absent.  `dec` stands for `JSON.parse` composed with base64 decoding. -/
def parseDoc {T : Type} (dec : String → T) (cache : Option Existing) : Option T :=
  cache.map fun ex => dec ex.content

/-- JavaScript `String(x)` on a possibly-undefined string. -/
def jsString (s : Option String) : String := s.getD "undefined"

/-- JavaScript `String.prototype.trim`: strips leading and trailing
whitespace. -/
def jsTrim (s : String) : String :=
  ⟨((s.data.dropWhile Char.isWhitespace).reverse.dropWhile Char.isWhitespace).reverse⟩

/-- `ensureCache({ renew })`: re-fetches when the cache was never loaded, when
`renew` is set, or when the entry records an existing document whose
`expires` timestamp has passed (`cache.existing && Date.now() > cache.existing.expires`);
a fetched document is cached with `expires = Date.now() + 5e3` and a 404 is
cached as confirmed-absent.  (The in-flight `cacheLoadPromise` coalescing
concerns only intra-process concurrency, which this sequential embedding does
not model; the `Array.isArray` directory guard is likewise out of scope.) -/
def ensureCache (B : Backend) (now : Nat) (renew : Bool) (s : RunState) :
    Except JsError (Option Existing) × RunState :=
  if s.cache.isNone || renew ||
      s.cache.any fun c => c.any fun ex => decide (ex.expires < now) then
    match B.fetch s.nF with
    | .ok (sha, content) =>
      let c : Option Existing := some ⟨sha, content, now + 5000⟩
      (.ok c, { s with cache := some c, nF := s.nF + 1 })
    | .error e =>
      let e := decorateErrorWithMessage "getContents" e
      if e.status = some 404 then
        (.ok none, { s with cache := some none, nF := s.nF + 1 })
      else
        (.error e, { s with nF := s.nF + 1 })
  else
    match s.cache with
    | some c => (.ok c, s)
    | none => (.error ⟨none, "Internal error: Cache data not found despite loaded"⟩, s)

/-- One iteration of the `for (;;)` body of `updateDoc` (its `try` block):
ensure the cache, apply the updater, skip the write when the new serialized
content trim-equals the cached serialized content, otherwise write with the
cached sha as the compare-and-swap precondition and record the written
content in the cache with a fresh expiry.  `enc` stands for
`JSON.stringify(-, null, 2)` composed with base64 encoding. -/
def updateAttempt {T : Type} (B : Backend) (enc : T → String) (dec : String → T)
    (updater : Option T → T) (now : Nat) (renew : Bool) (s : RunState) :
    Except JsError T × RunState :=
  match ensureCache B now renew s with
  | (.error e, s') => (.error e, s')
  | (.ok c, s') =>
    let newData := updater (parseDoc dec c)
    let newContent := enc newData
    if jsTrim newContent = jsTrim (jsString (c.map Existing.content)) then
      (.ok newData, s')
    else
      match B.write s'.nW with
      | .error e =>
        (.error (decorateErrorWithMessage "createOrUpdateFile" e),
          { s' with nW := s'.nW + 1 })
      | .ok sha =>
        (.ok newData,
          { cache := some (some ⟨sha, newContent, now + 5000⟩),
            nF := s'.nF, nW := s'.nW + 1 })

/-- `const retryDelays = [0, 1000, 2000, 5000, 10000]`. -/
def retryDelays : List Nat := [0, 1000, 2000, 5000, 10000]

/-- The error class `updateDoc` retries:
`error.status === 409 || error.status === 422`, the two statuses under which
the backend reports a failed compare-and-swap precondition (409: sha
mismatch; 422: no sha supplied but the blob already exists). -/
def isVersionConflict (e : JsError) : Prop :=
  e.status = some 409 ∨ e.status = some 422

instance : DecidablePred isVersionConflict := fun e =>
  inferInstanceAs (Decidable (e.status = some 409 ∨ e.status = some 422))

/-- Outcome of an `updateDoc` call: the returned value or thrown error, the
final closure state, and the delays slept between retries, in order. -/
structure UpdateOutcome (T : Type) where
  result : Except JsError T
  state : RunState
  delays : List Nat
deriving Repr

/-- The retry loop of `updateDoc` from a given attempt number: the cache is
force-refreshed on every retry (`renew: attempt > 0`); a version conflict
with remaining budget (`attempt < 5`) sleeps `retryDelays[attempt]` and
retries; any other error, or an exhausted budget, is thrown. -/
def updateDocLoop {T : Type} (B : Backend) (enc : T → String) (dec : String → T)
    (updater : Option T → T) (now : Nat) (s : RunState) (delays : List Nat)
    (attempt : Nat) : UpdateOutcome T :=
  match updateAttempt B enc dec updater now (decide (0 < attempt)) s with
  | (.ok v, s') => ⟨.ok v, s', delays⟩
  | (.error e, s') =>
    if h : isVersionConflict e ∧ attempt < 5 then
      match retryDelays[attempt]? with
      | some d0 => updateDocLoop B enc dec updater now s' (delays ++ [d0]) (attempt + 1)
      | none => ⟨.error e, s', delays⟩
    else ⟨.error e, s', delays⟩
termination_by 6 - attempt
decreasing_by omega

/-- `updateDoc(updater, message)` starts the loop at attempt 0.  The commit
`message` is forwarded verbatim to the backend write and has no effect on
this logic, so it is not threaded through the embedding. -/
def updateDoc {T : Type} (B : Backend) (enc : T → String) (dec : String → T)
    (updater : Option T → T) (now : Nat) (s : RunState) : UpdateOutcome T :=
  updateDocLoop B enc dec updater now s [] 0

/-- C3: a version conflict is the only error class the update loop retries —
whenever an attempt (at any point of the loop, fetch or write included) fails
with an error that is not a 409/422 version conflict, the loop surfaces
exactly that error at once: no delay is slept and the state is exactly the
failing attempt's, so no further backend call is made. -/
theorem updateDoc_nonconflict_no_retry {T : Type} (B : Backend) (enc : T → String)
    (dec : String → T) (updater : Option T → T) (now : Nat) (s s' : RunState)
    (delays : List Nat) (attempt : Nat) (e : JsError)
    (hatt : updateAttempt B enc dec updater now (decide (0 < attempt)) s = (.error e, s'))
    (hnc : ¬ isVersionConflict e) :
    updateDocLoop B enc dec updater now s delays attempt = ⟨.error e, s', delays⟩ := by
  rw [updateDocLoop, hatt]
  simp [hnc]

/-- Witness for `updateDoc_nonconflict_no_retry`: a backend whose write fails
with a 500 makes `updateDoc` (attempt 0, loaded unexpired cache) throw at
once, with exactly one write issued and no delay slept. -/
theorem updateDoc_nonconflict_no_retry_witness :
    updateDocLoop
        ⟨fun _ => .ok ("sha0", "c0"), fun _ => .error ⟨some 500, "boom"⟩⟩
        (fun n : Nat => toString n) (fun _ => 0) (fun _ => 7) 50
        ⟨some (some ⟨"sha", "c", 100⟩), 0, 0⟩ [] 0 =
      ⟨.error ⟨some 500, "createOrUpdateFile > boom"⟩,
        ⟨some (some ⟨"sha", "c", 100⟩), 0, 1⟩, []⟩ := by
  exact updateDoc_nonconflict_no_retry _ _ _ _ _ _ _ _ _ _ (by rfl) (by decide)

theorem updateAttempt_conflict_step {T : Type} (B : Backend) (enc : T → String)
    (dec : String → T) (updater : Option T → T) (now : Nat) (renew : Bool)
    (s : RunState) (sha content msg : String)
    (hguard : (s.cache.isNone || renew ||
      s.cache.any fun c => c.any fun ex => decide (ex.expires < now)) = true)
    (hf : B.fetch s.nF = .ok (sha, content))
    (hw : B.write s.nW = .error ⟨some 409, msg⟩)
    (hne : jsTrim (enc (updater (some (dec content)))) ≠ jsTrim content) :
    updateAttempt B enc dec updater now renew s =
      (.error ⟨some 409, "createOrUpdateFile > " ++ msg⟩,
        ⟨some (some ⟨sha, content, now + 5000⟩), s.nF + 1, s.nW + 1⟩) := by
  unfold updateAttempt ensureCache
  simp [hguard, hf, hw, hne, parseDoc, jsString, decorateErrorWithMessage]

theorem updateDocLoop_conflict_exhausts {T : Type} (B : Backend) (enc : T → String)
    (dec : String → T) (updater : Option T → T) (now : Nat)
    (hf : ∀ i, ∃ sha content, B.fetch i = .ok (sha, content))
    (hw : ∀ i, ∃ msg, B.write i = .error ⟨some 409, msg⟩)
    (hne : ∀ i sha content, B.fetch i = .ok (sha, content) →
      jsTrim (enc (updater (some (dec content)))) ≠ jsTrim content) :
    ∀ k attempt s delays, attempt + k = 5 → 0 < attempt →
      ∃ e cache1,
        updateDocLoop B enc dec updater now s delays attempt =
          ⟨.error e, ⟨cache1, s.nF + (k + 1), s.nW + (k + 1)⟩,
            delays ++ retryDelays.drop attempt⟩ ∧
        e.status = some 409 := by
  intro k
  induction k with
  | zero =>
    intro attempt s delays hak hpos
    obtain ⟨sha, content, hfi⟩ := hf s.nF
    obtain ⟨msg, hwi⟩ := hw s.nW
    have hstep := updateAttempt_conflict_step B enc dec updater now
      (decide (0 < attempt)) s sha content msg (by simp [hpos]) hfi hwi
      (hne s.nF sha content hfi)
    have h5 : attempt = 5 := by omega
    subst h5
    rw [updateDocLoop, hstep]
    refine ⟨⟨some 409, "createOrUpdateFile > " ++ msg⟩,
      some (some ⟨sha, content, now + 5000⟩), ?_, rfl⟩
    simp [retryDelays]
  | succ k ih =>
    intro attempt s delays hak hpos
    obtain ⟨sha, content, hfi⟩ := hf s.nF
    obtain ⟨msg, hwi⟩ := hw s.nW
    have hstep := updateAttempt_conflict_step B enc dec updater now
      (decide (0 < attempt)) s sha content msg (by simp [hpos]) hfi hwi
      (hne s.nF sha content hfi)
    have hlt : attempt < 5 := by omega
    have hlen : attempt < retryDelays.length := by simp [retryDelays]; omega
    rw [updateDocLoop, hstep]
    dsimp only
    rw [dif_pos ⟨Or.inl rfl, hlt⟩, List.getElem?_eq_getElem hlen]
    dsimp only
    obtain ⟨e, cache1, hrec, hst⟩ := ih (attempt + 1)
      ⟨some (some ⟨sha, content, now + 5000⟩), s.nF + 1, s.nW + 1⟩
      (delays ++ [retryDelays[attempt]]) (by omega) (by omega)
    refine ⟨e, cache1, ?_, hst⟩
    rw [hrec]
    dsimp only
    have hdrop : retryDelays[attempt] :: retryDelays.drop (attempt + 1) =
        retryDelays.drop attempt := by
      interval_cases attempt <;> rfl
    have h1 : s.nF + 1 + (k + 1) = s.nF + (k + 1 + 1) := by omega
    have h2 : s.nW + 1 + (k + 1) = s.nW + (k + 1 + 1) := by omega
    have h3 : (delays ++ [retryDelays[attempt]]) ++ retryDelays.drop (attempt + 1) =
        delays ++ retryDelays.drop attempt := by
      rw [List.append_assoc, List.singleton_append, hdrop]
    rw [h1, h2, h3]

/-- C4: against a backend whose every write fails with a version conflict
(and whose reads succeed with content the updater always changes),
`updateDoc` force-refreshes the cache before every retry, sleeps exactly the
delays `[0, 1000, 2000, 5000, 10000]` indexed by attempt number, performs 6
attempts in total (the initial one plus 5 retries: 6 fetches and 6 writes
from an unloaded cache), and throws the conflict error when the 6th attempt
still conflicts. -/
theorem updateDoc_conflict_budget {T : Type} (B : Backend) (enc : T → String)
    (dec : String → T) (updater : Option T → T) (now : Nat) (s : RunState)
    (hc : s.cache = none)
    (hf : ∀ i, ∃ sha content, B.fetch i = .ok (sha, content))
    (hw : ∀ i, ∃ msg, B.write i = .error ⟨some 409, msg⟩)
    (hne : ∀ i sha content, B.fetch i = .ok (sha, content) →
      jsTrim (enc (updater (some (dec content)))) ≠ jsTrim content) :
    ∃ e cache1,
      updateDoc B enc dec updater now s =
        ⟨.error e, ⟨cache1, s.nF + 6, s.nW + 6⟩, retryDelays⟩ ∧
      isVersionConflict e := by
  obtain ⟨sha, content, hfi⟩ := hf s.nF
  obtain ⟨msg, hwi⟩ := hw s.nW
  have hstep := updateAttempt_conflict_step B enc dec updater now
    (decide (0 < 0)) s sha content msg (by simp [hc]) hfi hwi
    (hne s.nF sha content hfi)
  unfold updateDoc
  rw [updateDocLoop, hstep]
  dsimp only
  rw [dif_pos ⟨Or.inl rfl, by omega⟩]
  have hget : retryDelays[0]? = some 0 := rfl
  rw [hget]
  dsimp only
  simp only [Nat.zero_add]
  obtain ⟨e, cache1, hrec, hst⟩ := updateDocLoop_conflict_exhausts B enc dec
    updater now hf hw hne 4 1
    ⟨some (some ⟨sha, content, now + 5000⟩), s.nF + 1, s.nW + 1⟩ ([] ++ [0])
    (by omega) (by omega)
  refine ⟨e, cache1, ?_, Or.inl hst⟩
  rw [hrec]
  dsimp only
  have h1 : s.nF + 1 + (4 + 1) = s.nF + 6 := by omega
  have h2 : s.nW + 1 + (4 + 1) = s.nW + 6 := by omega
  have h3 : ([] ++ [0]) ++ retryDelays.drop 1 = retryDelays := rfl
  rw [h1, h2, h3]

/-- Witness for `updateDoc_conflict_budget`: a backend that always answers
reads with content `"c"` and fails every write with a 409 exhausts all 6
attempts and throws the conflict. -/
theorem updateDoc_conflict_budget_witness :
    ∃ e cache1,
      updateDoc ⟨fun _ => .ok ("sha", "c"), fun _ => .error ⟨some 409, "conflict"⟩⟩
          (fun n : Nat => toString n) (fun _ => 0) (fun _ => 7) 50 ⟨none, 0, 0⟩ =
        ⟨.error e, ⟨cache1, 0 + 6, 0 + 6⟩, retryDelays⟩ ∧
      isVersionConflict e := by
  refine updateDoc_conflict_budget _ _ _ _ _ _ rfl
    (fun i => ⟨"sha", "c", rfl⟩) (fun i => ⟨"conflict", rfl⟩) ?_
  intro i sha content h
  have h2 : (Except.ok ("sha", "c") : Except JsError (String × String)) =
      .ok (sha, content) := h
  simp only [Except.ok.injEq, Prod.mk.injEq] at h2
  obtain ⟨h3, h4⟩ := h2
  subst h4
  decide

theorem updateDoc_skip {T : Type} (B : Backend) (enc : T → String) (dec : String → T)
    (updater : Option T → T) (now : Nat) (s : RunState) (ex : Existing)
    (hc : s.cache = some (some ex)) (hfresh : now ≤ ex.expires)
    (heq : jsTrim (enc (updater (some (dec ex.content)))) = jsTrim ex.content) :
    updateDoc B enc dec updater now s =
      ⟨.ok (updater (some (dec ex.content))), s, []⟩ := by
  have hguard : (s.cache.isNone || decide (0 < 0) ||
      s.cache.any fun c => c.any fun ex2 => decide (ex2.expires < now)) = false := by
    simp [hc, Nat.not_lt.mpr hfresh]
  have hatt : updateAttempt B enc dec updater now (decide (0 < 0)) s =
      (.ok (updater (some (dec ex.content))), s) := by
    unfold updateAttempt ensureCache
    rw [if_neg (by rw [hguard]; exact Bool.false_ne_true)]
    rw [hc]
    dsimp only [parseDoc]
    rw [if_pos (by simpa [jsString] using heq)]
    rfl
  unfold updateDoc
  rw [updateDocLoop, hatt]

/-- C5: (1) when the serialized new value is byte-for-byte identical to the
serialized cached current value, `update` skips the write and returns the new
value with the state untouched — no backend call happens, so the remote
version is unchanged; (2) consequently `update(f)` immediately after
`update(f)`, for `f` idempotent on its own output (modulo the serialization
round-trip), performs exactly one write in total: the second call elides its
write. -/
theorem updateDoc_idempotent_fast_path :
    (∀ (T : Type) (B : Backend) (enc : T → String) (dec : String → T)
        (updater : Option T → T) (now : Nat) (s : RunState) (ex : Existing),
      s.cache = some (some ex) → now ≤ ex.expires →
      enc (updater (some (dec ex.content))) = ex.content →
      updateDoc B enc dec updater now s =
        ⟨.ok (updater (some (dec ex.content))), s, []⟩) ∧
    (∀ (T : Type) (B : Backend) (enc : T → String) (dec : String → T)
        (f : Option T → T) (now : Nat) (s : RunState) (ex : Existing)
        (sha : String) (v1 : T),
      s.cache = some (some ex) → now ≤ ex.expires →
      v1 = f (some (dec ex.content)) →
      jsTrim (enc v1) ≠ jsTrim ex.content →
      B.write s.nW = .ok sha →
      dec (enc v1) = v1 →
      f (some v1) = v1 →
      updateDoc B enc dec f now s =
        ⟨.ok v1, ⟨some (some ⟨sha, enc v1, now + 5000⟩), s.nF, s.nW + 1⟩, []⟩ ∧
      updateDoc B enc dec f now ⟨some (some ⟨sha, enc v1, now + 5000⟩), s.nF, s.nW + 1⟩ =
        ⟨.ok v1, ⟨some (some ⟨sha, enc v1, now + 5000⟩), s.nF, s.nW + 1⟩, []⟩) := by
  constructor
  · intro T B enc dec updater now s ex hc hfresh heq
    exact updateDoc_skip B enc dec updater now s ex hc hfresh (by rw [heq])
  · intro T B enc dec f now s ex sha v1 hc hfresh hv1 hne hw hdec hidem
    subst hv1
    constructor
    · have hguard : (s.cache.isNone || decide (0 < 0) ||
          s.cache.any fun c => c.any fun ex2 => decide (ex2.expires < now)) = false := by
        simp [hc, Nat.not_lt.mpr hfresh]
      have hatt : updateAttempt B enc dec f now (decide (0 < 0)) s =
          (.ok (f (some (dec ex.content))),
            ⟨some (some ⟨sha, enc (f (some (dec ex.content))), now + 5000⟩),
              s.nF, s.nW + 1⟩) := by
        unfold updateAttempt ensureCache
        rw [if_neg (by rw [hguard]; exact Bool.false_ne_true)]
        rw [hc]
        dsimp only [parseDoc]
        rw [if_neg (by simpa [jsString] using hne), hw]
        rfl
      unfold updateDoc
      rw [updateDocLoop, hatt]
    · have hskip := updateDoc_skip B enc dec f now
        ⟨some (some ⟨sha, enc (f (some (dec ex.content))), now + 5000⟩), s.nF, s.nW + 1⟩
        ⟨sha, enc (f (some (dec ex.content))), now + 5000⟩ rfl (Nat.le_add_right now 5000)
        (by dsimp only; rw [hdec, hidem])
      dsimp only at hskip
      rw [hdec, hidem] at hskip
      exact hskip

/-- Witness for `updateDoc_idempotent_fast_path`: with string-valued
documents and identity serialization, an updater returning the cached value
skips the write, and a second identical `update` after a successful write
elides its write. -/
theorem updateDoc_idempotent_fast_path_witness :
    updateDoc ⟨fun _ => .ok ("s", "c"), fun _ => .ok "w"⟩ (fun x : String => x)
        (fun x => x) (fun o => o.getD "a") 50 ⟨some (some ⟨"sha", "a", 100⟩), 0, 0⟩ =
      ⟨.ok "a", ⟨some (some ⟨"sha", "a", 100⟩), 0, 0⟩, []⟩ ∧
    updateDoc ⟨fun _ => .ok ("s", "c"), fun _ => .ok "sha2"⟩ (fun x : String => x)
        (fun x => x) (fun _ => "b") 50 ⟨some (some ⟨"sha", "a", 100⟩), 0, 0⟩ =
      ⟨.ok "b", ⟨some (some ⟨"sha2", "b", 5050⟩), 0, 1⟩, []⟩ ∧
    updateDoc ⟨fun _ => .ok ("s", "c"), fun _ => .ok "sha2"⟩ (fun x : String => x)
        (fun x => x) (fun _ => "b") 50 ⟨some (some ⟨"sha2", "b", 5050⟩), 0, 1⟩ =
      ⟨.ok "b", ⟨some (some ⟨"sha2", "b", 5050⟩), 0, 1⟩, []⟩ := by
  refine ⟨?_, ?_, ?_⟩
  · exact updateDoc_idempotent_fast_path.1 String
      ⟨fun _ => .ok ("s", "c"), fun _ => .ok "w"⟩ (fun x => x) (fun x => x)
      (fun o => o.getD "a") 50 ⟨some (some ⟨"sha", "a", 100⟩), 0, 0⟩
      ⟨"sha", "a", 100⟩ rfl (by decide) rfl
  · exact (updateDoc_idempotent_fast_path.2 String
      ⟨fun _ => .ok ("s", "c"), fun _ => .ok "sha2"⟩ (fun x => x) (fun x => x)
      (fun _ => "b") 50 ⟨some (some ⟨"sha", "a", 100⟩), 0, 0⟩ ⟨"sha", "a", 100⟩
      "sha2" "b" rfl (by decide) rfl (by decide) rfl rfl rfl).1
  · exact (updateDoc_idempotent_fast_path.2 String
      ⟨fun _ => .ok ("s", "c"), fun _ => .ok "sha2"⟩ (fun x => x) (fun x => x)
      (fun _ => "b") 50 ⟨some (some ⟨"sha", "a", 100⟩), 0, 0⟩ ⟨"sha", "a", 100⟩
      "sha2" "b" rfl (by decide) rfl (by decide) rfl rfl rfl).2

/-- Counterexample to C6 as stated: a cache entry recording a confirmed-absent
document never expires.  At time 0 a 404 confirms the document absent; at
time 1000000 — far past any 5-second window — an operation without a forced
refresh (`renew: false`, as in `updateDoc`'s first attempt) still serves the
absent entry from the cache and issues no re-fetch (`nF` stays 1), although
the backend now holds a document: the guard
`cache.existing && Date.now() > cache.existing.expires` is vacuously false
when `existing` is absent. -/
theorem ensureCache_absent_never_refetched :
    ensureCache ⟨fun _ => .error ⟨some 404, "nf"⟩, fun _ => .ok "w"⟩ 0 false
        ⟨none, 0, 0⟩ = (.ok none, ⟨some none, 1, 0⟩) ∧
    ensureCache ⟨fun _ => .ok ("sha1", "c1"), fun _ => .ok "w"⟩ 1000000 false
        ⟨some none, 1, 0⟩ = (.ok none, ⟨some none, 1, 0⟩) :=
  ⟨rfl, rfl⟩

/-- C6 (amended): a cache entry recording an existing document is stamped
`expires = now + 5e3` when confirmed by a fetch and again by a successful
write, and once `expires < now` the next operation re-fetches even without a
forced refresh; but an entry recording a confirmed-absent document carries no
expiry and is never re-fetched except under a forced refresh. -/
theorem ensureCache_expiry_spec :
    (∀ (B : Backend) (now : Nat) (renew : Bool) (s : RunState) (sha content : String),
      B.fetch s.nF = .ok (sha, content) →
      (s.cache.isNone || renew ||
        s.cache.any fun c => c.any fun ex => decide (ex.expires < now)) = true →
      ensureCache B now renew s =
        (.ok (some ⟨sha, content, now + 5000⟩),
          ⟨some (some ⟨sha, content, now + 5000⟩), s.nF + 1, s.nW⟩)) ∧
    (∀ (T : Type) (B : Backend) (enc : T → String) (dec : String → T)
        (updater : Option T → T) (now : Nat) (renew : Bool) (s s' : RunState)
        (c : Option Existing) (sha : String),
      ensureCache B now renew s = (.ok c, s') →
      jsTrim (enc (updater (parseDoc dec c))) ≠
        jsTrim (jsString (c.map Existing.content)) →
      B.write s'.nW = .ok sha →
      updateAttempt B enc dec updater now renew s =
        (.ok (updater (parseDoc dec c)),
          ⟨some (some ⟨sha, enc (updater (parseDoc dec c)), now + 5000⟩),
            s'.nF, s'.nW + 1⟩)) ∧
    (∀ (B : Backend) (now : Nat) (s : RunState) (ex : Existing),
      s.cache = some (some ex) → ex.expires < now →
      (ensureCache B now false s).2.nF = s.nF + 1) ∧
    (∀ (B : Backend) (now : Nat) (s : RunState),
      s.cache = some none → ensureCache B now false s = (.ok none, s)) := by
  refine ⟨?_, ?_, ?_, ?_⟩
  · intro B now renew s sha content hf hguard
    unfold ensureCache
    rw [if_pos hguard, hf]
  · intro T B enc dec updater now renew s s' c sha hens hne hw
    unfold updateAttempt
    rw [hens]
    dsimp only
    rw [if_neg hne, hw]
  · intro B now s ex hc hexp
    have hguard : (s.cache.isNone || false ||
        s.cache.any fun c => c.any fun ex2 => decide (ex2.expires < now)) = true := by
      simp [hc, hexp]
    unfold ensureCache
    rw [if_pos hguard]
    rcases hB : B.fetch s.nF with e | p
    · dsimp only
      split <;> rfl
    · rfl
  · intro B now s hc
    unfold ensureCache
    rw [if_neg (by simp [hc])]
    rw [hc]

/-- Witness for `ensureCache_expiry_spec` at concrete states: a fresh fetch
stamps `expires = 5010` at time 10, a successful write restamps it, an
expired existing entry re-fetches without `renew`, and a confirmed-absent
entry is served from cache. -/
theorem ensureCache_expiry_spec_witness :
    ensureCache ⟨fun _ => .ok ("sh", "cc"), fun _ => .ok "w"⟩ 10 true ⟨none, 0, 0⟩ =
      (.ok (some ⟨"sh", "cc", 5010⟩), ⟨some (some ⟨"sh", "cc", 5010⟩), 1, 0⟩) ∧
    updateAttempt ⟨fun _ => .ok ("sh", "cc"), fun _ => .ok "w"⟩ (fun x : String => x)
        (fun x => x) (fun _ => "z") 10 true ⟨none, 0, 0⟩ =
      (.ok "z", ⟨some (some ⟨"w", "z", 5010⟩), 1, 1⟩) ∧
    (ensureCache ⟨fun _ => .ok ("sh", "cc"), fun _ => .ok "w"⟩ 10 false
      ⟨some (some ⟨"s", "c", 5⟩), 3, 4⟩).2.nF = 4 ∧
    ensureCache ⟨fun _ => .ok ("sh", "cc"), fun _ => .ok "w"⟩ 10 false
        ⟨some none, 3, 4⟩ = (.ok none, ⟨some none, 3, 4⟩) := by
  refine ⟨?_, ?_, ?_, ?_⟩
  · exact ensureCache_expiry_spec.1 ⟨fun _ => .ok ("sh", "cc"), fun _ => .ok "w"⟩
      10 true ⟨none, 0, 0⟩ "sh" "cc" rfl (by decide)
  · exact ensureCache_expiry_spec.2.1 String
      ⟨fun _ => .ok ("sh", "cc"), fun _ => .ok "w"⟩ (fun x => x) (fun x => x)
      (fun _ => "z") 10 true ⟨none, 0, 0⟩ ⟨some (some ⟨"sh", "cc", 5010⟩), 1, 0⟩
      (some ⟨"sh", "cc", 5010⟩) "w" (by rfl) (by decide) rfl
  · exact ensureCache_expiry_spec.2.2.1 ⟨fun _ => .ok ("sh", "cc"), fun _ => .ok "w"⟩
      10 ⟨some (some ⟨"s", "c", 5⟩), 3, 4⟩ ⟨"s", "c", 5⟩ rfl (by decide)
  · exact ensureCache_expiry_spec.2.2.2 ⟨fun _ => .ok ("sh", "cc"), fun _ => .ok "w"⟩
      10 ⟨some none, 3, 4⟩ rfl

/-! ## Connectivity preflight (`ensureConnectivity`) and the public operations -/

/-- The store-level backend for the preflight: `repoGet i` is the push
permission reported by the `i`-th `octokit.repos.get` call (or its error),
`getBranch i` the outcome of the `i`-th `octokit.repos.getBranch` call. -/
structure ConnBackend where
  repoGet : Nat → Except JsError Bool
  getBranch : Nat → Except JsError Unit

/-- The store-level state: the `readOnly` flag, whether a `branch` was
configured, the memoized `connectivityPromise` outcome (`none` until the
first preflight; the stored error is the shared object whose message each
later `await ... .catch(decorateErrorWithMessage)` mutates), and counters of
`repos.get` and `repos.getBranch` calls issued. -/
structure StoreSt where
  readOnly : Bool
  hasBranch : Bool
  connectivity : Option (Except JsError Unit)
  nRepo : Nat
  nBranch : Nat
deriving Repr

/-- The permission error raised when the token cannot push and `readOnly`
was not set. -/
def permissionMessage (owner repo : String) : String :=
  "You don" ++ "\u2019" ++ "t have a permission to push to the repository \"" ++
    owner ++ "/" ++ repo ++ "\" and the readOnly option has not been set."

/-- `ensureConnectivity()`: on the first call builds the memoized promise —
load the repository, fail with the permission error when push is denied and
the store is not read-only, then check the branch when one is configured —
and on every call awaits the stored outcome through
`.catch(decorateErrorWithMessage("ensureConnectivity"))`, which mutates the
stored error's message in place. -/
def ensureConnectivity (owner repo : String) (CB : ConnBackend) (st : StoreSt) :
    Except JsError Unit × StoreSt :=
  match st.connectivity with
  | some (.ok _) => (.ok (), st)
  | some (.error e) =>
    let e2 := decorateErrorWithMessage "ensureConnectivity" e
    (.error e2, { st with connectivity := some (.error e2) })
  | none =>
    let checked : Except JsError Unit × Nat :=
      match CB.repoGet st.nRepo with
      | .error e => (.error e, st.nBranch)
      | .ok push =>
        if !push && !st.readOnly then
          (.error ⟨none, permissionMessage owner repo⟩, st.nBranch)
        else if st.hasBranch then
          match CB.getBranch st.nBranch with
          | .error e => (.error e, st.nBranch + 1)
          | .ok _ => (.ok (), st.nBranch + 1)
        else (.ok (), st.nBranch)
    match checked with
    | (.ok _, nb) =>
      (.ok (), { st with connectivity := some (.ok ()), nRepo := st.nRepo + 1, nBranch := nb })
    | (.error e, nb) =>
      let e2 := decorateErrorWithMessage "ensureConnectivity" e
      (.error e2, { st with connectivity := some (.error e2), nRepo := st.nRepo + 1, nBranch := nb })

/-- `doc.get()`: preflight, then a forced-refresh `ensureCache`, whose errors
are decorated with the operation and key. -/
def getOp {T : Type} (owner repo key : String) (CB : ConnBackend) (B : Backend)
    (dec : String → T) (now : Nat) (st : StoreSt) (s : RunState) :
    Except JsError (Option T) × StoreSt × RunState :=
  match ensureConnectivity owner repo CB st with
  | (.error e, st') => (.error e, st', s)
  | (.ok _, st') =>
    match ensureCache B now true s with
    | (.error e, s') =>
      (.error (decorateErrorWithMessage ("get(" ++ key ++ ")") e), st', s')
    | (.ok c, s') => (.ok (parseDoc dec c), st', s')

/-- `doc.update(updater)`: preflight, then `updateDoc`, whose errors are
decorated with the operation and key. -/
def updateOp {T : Type} (owner repo key : String) (CB : ConnBackend) (B : Backend)
    (enc : T → String) (dec : String → T) (updater : Option T → T) (now : Nat)
    (st : StoreSt) (s : RunState) : Except JsError T × StoreSt × RunState :=
  match ensureConnectivity owner repo CB st with
  | (.error e, st') => (.error e, st', s)
  | (.ok _, st') =>
    let o := updateDoc B enc dec updater now s
    match o.result with
    | .ok v => (.ok v, st', o.state)
    | .error e =>
      (.error (decorateErrorWithMessage ("update(" ++ key ++ ")") e), st', o.state)

/-- `doc.set(v)`: `updateDoc(() => v)` behind the same preflight, errors
decorated with `set(key)`. -/
def setOp {T : Type} (owner repo key : String) (CB : ConnBackend) (B : Backend)
    (enc : T → String) (dec : String → T) (v : T) (now : Nat)
    (st : StoreSt) (s : RunState) : Except JsError T × StoreSt × RunState :=
  match ensureConnectivity owner repo CB st with
  | (.error e, st') => (.error e, st', s)
  | (.ok _, st') =>
    let o := updateDoc B enc dec (fun _ => v) now s
    match o.result with
    | .ok v2 => (.ok v2, st', o.state)
    | .error e =>
      (.error (decorateErrorWithMessage ("set(" ++ key ++ ")") e), st', o.state)

/-- C10: on a store not configured read-only whose backend denies push
permission, the first `get()` — a pure read — already fails with the
permission error, before touching the document cache (the run state is
untouched: no fetch happens); the preflight outcome is memoized, so every
later `get`/`update`/`set` on the same store fails with the same stored
error (re-decorated in place) without the permission check running again
(`nRepo` stays at one call) and without any backend fetch or write. -/
theorem preflight_gates_get {T : Type} (owner repo key : String) (CB : ConnBackend)
    (B : Backend) (enc : T → String) (dec : String → T) (updater : Option T → T)
    (v : T) (now now2 now3 now4 : Nat) (st : StoreSt) (s s2 s3 s4 : RunState)
    (hro : st.readOnly = false) (hconn : st.connectivity = none)
    (hperm : CB.repoGet st.nRepo = .ok false) :
    getOp owner repo key CB B dec now st s =
      (.error ⟨none, "ensureConnectivity > " ++ permissionMessage owner repo⟩,
        { st with
          connectivity :=
            some (.error ⟨none, "ensureConnectivity > " ++ permissionMessage owner repo⟩),
          nRepo := st.nRepo + 1 }, s) ∧
    (∀ st1, st1 = { st with
        connectivity :=
          some (.error ⟨none, "ensureConnectivity > " ++ permissionMessage owner repo⟩),
        nRepo := st.nRepo + 1 } →
      ∀ e2 st2, e2 = ⟨none, "ensureConnectivity > ensureConnectivity > " ++
          permissionMessage owner repo⟩ →
        st2 = { st1 with connectivity := some (.error e2) } →
      getOp owner repo key CB B dec now2 st1 s2 = (.error e2, st2, s2) ∧
      updateOp owner repo key CB B enc dec updater now3 st1 s3 = (.error e2, st2, s3) ∧
      setOp owner repo key CB B enc dec v now4 st1 s4 = (.error e2, st2, s4)) := by
  constructor
  · unfold getOp ensureConnectivity
    rw [hconn, hperm, hro]
    dsimp only [decorateErrorWithMessage]
    rfl
  · rintro st1 rfl e2 st2 rfl rfl
    refine ⟨?_, ?_, ?_⟩
    · unfold getOp ensureConnectivity
      rfl
    · unfold updateOp ensureConnectivity
      rfl
    · unfold setOp ensureConnectivity
      rfl

/-- Witness for `preflight_gates_get`: a concrete store with `readOnly` unset
against a backend reporting no push permission. -/
theorem preflight_gates_get_witness :
    getOp "taskworld" "ghkv" "k" ⟨fun _ => .ok false, fun _ => .ok ()⟩
        ⟨fun _ => .ok ("s", "c"), fun _ => .ok "w"⟩ (fun x : String => x) 5
        ⟨false, false, none, 0, 0⟩ ⟨none, 0, 0⟩ =
      (.error ⟨none, "ensureConnectivity > " ++ permissionMessage "taskworld" "ghkv"⟩,
        ⟨false, false,
          some (.error ⟨none, "ensureConnectivity > " ++ permissionMessage "taskworld" "ghkv"⟩),
          1, 0⟩, ⟨none, 0, 0⟩) ∧
    updateOp "taskworld" "ghkv" "k" ⟨fun _ => .ok false, fun _ => .ok ()⟩
        ⟨fun _ => .ok ("s", "c"), fun _ => .ok "w"⟩ (fun x : String => x) (fun x => x)
        (fun _ => "z") 6
        ⟨false, false,
          some (.error ⟨none, "ensureConnectivity > " ++ permissionMessage "taskworld" "ghkv"⟩),
          1, 0⟩ ⟨none, 0, 0⟩ =
      (.error ⟨none, "ensureConnectivity > ensureConnectivity > " ++
          permissionMessage "taskworld" "ghkv"⟩,
        ⟨false, false,
          some (.error ⟨none, "ensureConnectivity > ensureConnectivity > " ++
            permissionMessage "taskworld" "ghkv"⟩),
          1, 0⟩, ⟨none, 0, 0⟩) := by
  have h := preflight_gates_get "taskworld" "ghkv" "k"
    ⟨fun _ => .ok false, fun _ => .ok ()⟩ ⟨fun _ => .ok ("s", "c"), fun _ => .ok "w"⟩
    (fun x : String => x) (fun x => x) (fun _ => "z") "unused" 5 6 7 8
    ⟨false, false, none, 0, 0⟩ ⟨none, 0, 0⟩ ⟨none, 0, 0⟩ ⟨none, 0, 0⟩ ⟨none, 0, 0⟩
    rfl rfl rfl
  exact ⟨h.1, (h.2 _ rfl _ _ rfl rfl).2.1⟩

/-! ## `GhkvDataStore.doc` (C1) -/

/-- The reference-registry view of a `GhkvDataStore`: `cache` is the
`Map<string, GhkvDataReference>`, mapping keys to already-created document
references (identified here by allocation order), and `nextRef` numbers the
next reference to be allocated. -/
structure GhkvDataStore where
  cache : List (String × Nat)
  nextRef : Nat
deriving DecidableEq, Repr

/-- `GhkvDataStore.doc(key)`, translated faithfully: look the key up in the
map (`this.cache.get(key)`); on a miss, build a fresh reference and return
it.  The source never calls `this.cache.set`, so the map is returned
unchanged — the lookup can never hit. -/
def GhkvDataStore.doc (key : String) (r : GhkvDataStore) : Nat × GhkvDataStore :=
  match (r.cache.find? fun kv => kv.1 == key).map Prod.snd with
  | some d => (d, r)
  | none => (r.nextRef, { r with nextRef := r.nextRef + 1 })

/-- C1 fails on the code (code bug): `GhkvDataStore.doc` reads its memo map
but never writes it (`this.cache.set` is missing), so on a fresh store two
`doc` calls with the same key return two distinct reference instances —
reference 0 and reference 1 — and the map is still empty afterwards, where
the spec (and the dead `this.cache.get(key)` lookup) intend the same
memoized instance to be returned. -/
theorem doc_not_memoized :
    (GhkvDataStore.doc "k" ⟨[], 0⟩).1 = 0 ∧
    (GhkvDataStore.doc "k" ((GhkvDataStore.doc "k" ⟨[], 0⟩).2)).1 = 1 ∧
    (GhkvDataStore.doc "k" ⟨[], 0⟩).1 ≠
      (GhkvDataStore.doc "k" ((GhkvDataStore.doc "k" ⟨[], 0⟩).2)).1 ∧
    ((GhkvDataStore.doc "k" ⟨[], 0⟩).2).cache = [] := by
  refine ⟨rfl, rfl, by decide, rfl⟩

end Ghkv
